import Mathlib

/-!
Verification of the transfer pipeline in
`src/transfer_spotify_to_youtube_music.py` (a Spotify → YouTube Music
playlist transfer script).

The script's core is `search_and_add_to_playlist` (lines 162-240): a
resumable loop that, for each pending track, searches YouTube, appends the
best hit to a destination playlist, persists progress after every success,
retries transient failures up to `max_retries`, and aborts the whole run on
a quota-exceeded error.  Supporting pieces are `save_progress` /
`load_progress` (a single JSON progress record), `get_spotify_tracks`
(paged extraction from a playlist or the liked-songs library) and
`create_or_get_youtube_playlist` (destination playlist resolution).

The external services (YouTube search / playlist-insert, Spotify paging)
are modelled as oracles: an `Env` gives the outcome of the i-th loop
iteration's r-th attempt, a `YtApi` answers playlist lookups and inserts,
and the Spotify library is a plain list of raw items paged exactly the way
the code requests pages.  Everything the script itself does is translated
statement by statement.
-/

namespace STY

/-- A track descriptor as built by `get_spotify_tracks`
(`{'name': ..., 'artists': [...]}`). -/
structure Track where
  name : String
  artists : List String
deriving DecidableEq, Repr

/-- The persisted progress record written by `save_progress` (lines 43-50):
`{'playlist_id': ..., 'processed_tracks': ..., 'remaining_tracks': ...}`. -/
structure Progress where
  playlist_id : String
  processed_tracks : List String
  remaining_tracks : List Track
deriving DecidableEq, Repr

/-- `save_progress` (lines 33-50): builds the record from its three
arguments and overwrites the single progress file, unconditionally, so the
resulting store content is just the new record. -/
def save_progress (pid : String) (proc : List String) (rem : List Track) :
    Option Progress :=
  some ⟨pid, proc, rem⟩

/-- `load_progress` (lines 52-63): returns the parsed record when the file
exists, `None` otherwise.  The store is the file's content, `none` = absent. -/
def load_progress (st : Option Progress) : Option Progress := st

/-- Outcome of one `youtube.search().list(...).execute()` call for a given
loop iteration and attempt: a usable hit, an empty result list, an
`HttpError` whose text contains `quotaExceeded`, some other `HttpError`, or
a non-`HttpError` exception (e.g. a missing `videoId` key). -/
inductive SearchRes where
  | found
  | noHits
  | errQuota
  | errOther
  | exc
deriving DecidableEq, Repr

/-- Outcome of one `youtube.playlistItems().insert(...).execute()` call. -/
inductive AddRes where
  | ok
  | errQuota
  | errOther
  | exc
deriving DecidableEq, Repr

/-- The destination service as an oracle: outcomes indexed by the loop
iteration (position in the snapshot `remaining_tracks[:]`) and the attempt
number (`retry_count` at the start of the attempt). -/
structure Env where
  search : Nat → Nat → SearchRes
  add : Nat → Nat → AddRes

/-- Observable calls and pauses made by the engine, in order. -/
inductive Ev where
  | searchCall (i r : Nat)
  | appendCall (i r : Nat)
  | saveCall
  | sleepCall (d : Nat)
deriving DecidableEq, Repr

/-- The engine's mutable state: the two track lists, the progress store
(content of `playlist_progress.json`) and the log of external effects. -/
structure EngState where
  processed : List String
  remaining : List Track
  store : Option Progress
  events : List Ev
deriving DecidableEq, Repr

/-- The `while retry_count < max_retries` loop body of
`search_and_add_to_playlist` (lines 180-234) for the track at iteration
`i`.  `r` is `retry_count`, `fuel = max_retries - retry_count` (so the
while condition holds exactly when `fuel > 0`).  The returned flag is true
exactly when the quota branch executed `return` (line 223).

  - zero search hits: log and `break` — the track is left untouched;
  - a hit and a successful insert: append the name to `processed`, remove
    the track from `remaining` (first occurrence, like `list.remove`),
    `save_progress`, `sleep(delay)`, `break`;
  - `HttpError` with `quotaExceeded`: `save_progress` then `return`;
  - any other `HttpError`: `retry_count += 1`; if it reached `max_retries`
    give up on this track, else `sleep(delay * 2)` and retry;
  - any other exception: log and `break`. -/
def attemptLoop (env : Env) (pid : String) (delay : Nat) (i : Nat) (t : Track) :
    Nat → Nat → EngState → EngState × Bool
  | _, 0, s => (s, false)
  | r, fuel + 1, s =>
    let s1 : EngState := { s with events := s.events ++ [Ev.searchCall i r] }
    match env.search i r with
    | SearchRes.found =>
      let s2 : EngState := { s1 with events := s1.events ++ [Ev.appendCall i r] }
      match env.add i r with
      | AddRes.ok =>
        let proc := s2.processed ++ [t.name]
        let rem := s2.remaining.erase t
        ({ s2 with processed := proc, remaining := rem,
                   store := save_progress pid proc rem,
                   events := s2.events ++ [Ev.saveCall, Ev.sleepCall delay] },
         false)
      | AddRes.errQuota =>
        ({ s2 with store := save_progress pid s2.processed s2.remaining,
                   events := s2.events ++ [Ev.saveCall] }, true)
      | AddRes.errOther =>
        if fuel = 0 then (s2, false)
        else
          attemptLoop env pid delay i t (r + 1) fuel
            { s2 with events := s2.events ++ [Ev.sleepCall (delay * 2)] }
      | AddRes.exc => (s2, false)
    | SearchRes.noHits => (s1, false)
    | SearchRes.errQuota =>
      ({ s1 with store := save_progress pid s1.processed s1.remaining,
                 events := s1.events ++ [Ev.saveCall] }, true)
    | SearchRes.errOther =>
      if fuel = 0 then (s1, false)
      else
        attemptLoop env pid delay i t (r + 1) fuel
          { s1 with events := s1.events ++ [Ev.sleepCall (delay * 2)] }
    | SearchRes.exc => (s1, false)

/-- The `for track in remaining_tracks[:]` loop (line 178): iterate over a
snapshot of the remaining tracks, running the attempt loop for each; a
quota stop propagates the `return`. -/
def runTracks (env : Env) (pid : String) (maxRetries delay : Nat) :
    Nat → List Track → EngState → EngState × Bool
  | _, [], s => (s, false)
  | i, t :: ts, s =>
    let res := attemptLoop env pid delay i t 0 maxRetries s
    if res.2 then res
    else runTracks env pid maxRetries delay (i + 1) ts res.1

/-- Lines 167-176: start from `processed = []`, `remaining = tracks.copy()`,
then, if a progress record exists and its `playlist_id` equals the target
playlist id, overwrite both lists from the record. -/
def initState (store0 : Option Progress) (pid : String) (tracks : List Track) :
    List String × List Track :=
  match load_progress store0 with
  | some p =>
    if p.playlist_id = pid then (p.processed_tracks, p.remaining_tracks)
    else ([], tracks)
  | none => ([], tracks)

/-- The loop of `search_and_add_to_playlist` run from given initial lists,
followed by the completion cleanup (lines 236-240): when the run was not
quota-aborted and `remaining_tracks` is empty, the progress file is
unlinked. -/
def runFrom (env : Env) (pid : String) (maxRetries delay : Nat)
    (proc : List String) (rem : List Track) (store0 : Option Progress) :
    EngState × Bool :=
  let res := runTracks env pid maxRetries delay 0 rem ⟨proc, rem, store0, []⟩
  if res.2 then res
  else if res.1.remaining = [] then ({ res.1 with store := none }, false)
  else res

/-- `search_and_add_to_playlist` (lines 162-240).  `store0` is the content
of `playlist_progress.json` on entry, `pid` the target playlist id,
`tracks` the argument list.  The returned flag records whether the run
ended through the quota `return`. -/
def search_and_add_to_playlist (env : Env) (store0 : Option Progress)
    (pid : String) (tracks : List Track) (maxRetries delay : Nat) :
    EngState × Bool :=
  let init := initState store0 pid tracks
  runFrom env pid maxRetries delay init.1 init.2 store0

/-! ### Track extraction (`get_spotify_tracks`, lines 65-107) -/

/-- A raw artist object; `name = none` models a missing `'name'` key
(a `KeyError` on access). -/
structure RawArtist where
  name : Option String
deriving DecidableEq, Repr

/-- A raw track object; `none` fields model missing keys. -/
structure RawTrack where
  name : Option String
  artists : Option (List RawArtist)
deriving DecidableEq, Repr

/-- A raw page item; `track = none` models `item['track']` being `None`. -/
structure RawItem where
  track : Option RawTrack
deriving DecidableEq, Repr

/-- `[artist['name'] for artist in track['artists']]`: all artist names, or
`none` when some artist lacks one (the `KeyError` skips the whole item). -/
def artistNames : List RawArtist → Option (List String)
  | [] => some []
  | a :: rest =>
    match a.name, artistNames rest with
    | some n, some ns => some (n :: ns)
    | _, _ => none

/-- The per-item body of the extraction loop (lines 86-97): `None` tracks
are skipped by `if track:`, and a `KeyError` while building the descriptor
skips the item; otherwise one `{name, artists}` descriptor is produced. -/
def parseItem (it : RawItem) : Option Track :=
  match it.track with
  | none => none
  | some tr =>
    match tr.name, tr.artists with
    | some nm, some arts =>
      match artistNames arts with
      | some ns => some ⟨nm, ns⟩
      | none => none
    | _, _ => none

/-- One Spotify page for the liked-songs endpoint: the slice of the library
starting at `offset` of length at most `ps`, with `next` non-null exactly
when items remain beyond the slice. -/
def fetchPage (src : List RawItem) (ps offset : Nat) : List RawItem × Bool :=
  ((src.drop offset).take ps, decide (offset + ps < src.length))

/-- The `while results:` loop in liked-songs mode (lines 85-105): process
the current page, then — this is the line under test — re-fetch with
`offset = len(tracks)`, the count of descriptors KEPT so far, not of raw
items consumed (line 101).  The loop has no a-priori termination bound, so
it is given fuel; `none` means the fuel ran out (the code loops on). -/
def likedGo (src : List RawItem) (ps : Nat) :
    Nat → List RawItem × Bool → List Track → Option (List Track)
  | 0, _, _ => none
  | fuel + 1, page, acc =>
    let acc2 := acc ++ page.1.filterMap parseItem
    if page.2 then likedGo src ps fuel (fetchPage src ps acc2.length) acc2
    else some acc2

/-- `get_spotify_tracks(sp, liked_songs=True)`: first page at offset 0,
then the loop above. -/
def get_spotify_tracks_liked (src : List RawItem) (ps fuel : Nat) :
    Option (List Track) :=
  likedGo src ps fuel (fetchPage src ps 0) []

/-- `get_spotify_tracks(sp, playlist_id=...)`: playlist mode pages with the
native cursor `sp.next(results)` (line 103), so the pages partition the
source; each page's items are processed in order. -/
def get_spotify_tracks_playlist (pages : List (List RawItem)) : List Track :=
  pages.foldl (fun acc pg => acc ++ pg.filterMap parseItem) []

/-! ### Playlist resolution (`create_or_get_youtube_playlist`, lines 109-160) -/

/-- Playlist metadata as returned by the YouTube API. -/
structure PlaylistInfo where
  id : String
  title : String
  description : String
  privacyStatus : String
deriving DecidableEq, Repr

/-- Outcome of `youtube.playlists().list(id=...).execute()`: a response
with items, a response with no items, or an `HttpError`. -/
inductive ListResp where
  | items (p : PlaylistInfo)
  | empty
  | httpErr
deriving DecidableEq, Repr

/-- The YouTube playlists endpoint as an oracle: lookup by id, and the
metadata (with its freshly assigned id) the service returns for an insert
with the given title, description and privacy status. -/
structure YtApi where
  listById : String → ListResp
  insert : String → String → String → PlaylistInfo

/-- How `create_or_get_youtube_playlist` ends: a playlist dict, the
`ValueError` of line 137 (no playlist with that id), a re-raised
`HttpError` (line 141), or the `ValueError` of line 160 (neither argument
given). -/
inductive ResolveRes where
  | ok (p : PlaylistInfo)
  | errNoPlaylist (pid : String)
  | errHttp
  | errMissingArgs
deriving DecidableEq, Repr

/-- API calls made by the resolver, in order. -/
inductive YtCall where
  | list (pid : String)
  | insert (title desc privacy : String)
deriving DecidableEq, Repr

/-- The `elif playlist_name:` / `else:` part (lines 143-160): create a new
playlist with the given title and description and `privacyStatus:
"private"`, or raise when no name either. -/
def resolveByName (yt : YtApi) (playlist_name : Option String)
    (description : String) : ResolveRes × List YtCall :=
  match playlist_name with
  | some nm =>
    if nm = "" then (ResolveRes.errMissingArgs, [])
    else (ResolveRes.ok (yt.insert nm description "private"),
          [YtCall.insert nm description "private"])
  | none => (ResolveRes.errMissingArgs, [])

/-- `create_or_get_youtube_playlist` (lines 109-160): a truthy
`playlist_id` is fetched (one `list` call, no retry); an empty response
raises the not-found `ValueError`; an `HttpError` is re-raised; otherwise
the name branch runs. -/
def create_or_get_youtube_playlist (yt : YtApi)
    (playlist_name playlist_id : Option String) (description : String) :
    ResolveRes × List YtCall :=
  match playlist_id with
  | some pid =>
    if pid = "" then resolveByName yt playlist_name description
    else
      match yt.listById pid with
      | ListResp.items p => (ResolveRes.ok p, [YtCall.list pid])
      | ListResp.empty => (ResolveRes.errNoPlaylist pid, [YtCall.list pid])
      | ListResp.httpErr => (ResolveRes.errHttp, [YtCall.list pid])
  | none => resolveByName yt playlist_name description

/-! ### Crash states of a save (`save_progress`, lines 43-50) -/

/-- What the progress file can hold: nothing, a complete record, or the
truncated-but-not-yet-rewritten content left between `open(..., 'w')` and
the completion of `json.dump`. -/
inductive FileState where
  | absent
  | truncated
  | record (p : Progress)
deriving DecidableEq, Repr

/-- The on-disk states `save_progress` passes through, in order: the old
content, then the file truncated by `open('playlist_progress.json', 'w')`,
then the fully written new record.  There is no write-to-temporary-and-
rename step, so a crash can expose any entry of this list. -/
def save_progress_crash_states (old : FileState) (p : Progress) :
    List FileState :=
  [old, FileState.truncated, FileState.record p]

/-- The file content after a completed `save_progress`: the new record,
whatever was there before. -/
def save_progress_file (_old : FileState) (p : Progress) : FileState :=
  FileState.record p

/-! ### Store operation sequences (for the save/load round trip) -/

/-- The two mutations the script applies to the progress file: a
`save_progress` call and the `unlink` of line 240. -/
inductive StoreOp where
  | save (pid : String) (proc : List String) (rem : List Track)
  | clear
deriving DecidableEq, Repr

/-- Effect of one operation on the file: a save overwrites the single
record wholesale, a clear deletes it. -/
def applyStoreOp : Option Progress → StoreOp → Option Progress
  | _, StoreOp.save pid proc rem => save_progress pid proc rem
  | _, StoreOp.clear => none

/-- The file content after a sequence of operations from an absent file. -/
def runStoreOps (ops : List StoreOp) : Option Progress :=
  ops.foldl applyStoreOp none

/-! ### Instrumentation: the states a run passes through -/

/-- The engine states at the loop boundaries of
`search_and_add_to_playlist`: the state before the first iteration and
after each track's attempt loop (the only places the track lists change).
A quota stop ends the list early, like the `return`. -/
def runTracksTrace (env : Env) (pid : String) (maxRetries delay : Nat) :
    Nat → List Track → EngState → List EngState
  | _, [], s => [s]
  | i, t :: ts, s =>
    let res := attemptLoop env pid delay i t 0 maxRetries s
    if res.2 then [s, res.1]
    else s :: runTracksTrace env pid maxRetries delay (i + 1) ts res.1

/-- All states of a run started fresh from an extracted track list. -/
def engineStates (env : Env) (pid : String) (maxRetries delay : Nat)
    (tracks : List Track) : List EngState :=
  runTracksTrace env pid maxRetries delay 0 tracks ⟨[], tracks, none, []⟩

/-- The state invariant of the spec's §3/§8, on the two track lists:
no duplicates, `processed` names and `remaining` names disjoint, and their
union exactly the initial name set `N`. -/
def InvPR (N : List String) (proc : List String) (rem : List Track) : Prop :=
  proc.Nodup ∧ (rem.map Track.name).Nodup ∧
  (∀ n ∈ proc, n ∉ rem.map Track.name) ∧
  (∀ n, (n ∈ proc ∨ n ∈ rem.map Track.name) ↔ n ∈ N)

/-- The disjointness-and-union part of the claimed invariant, for one
engine state relative to the initially extracted `tracks`. -/
def c5StateProp (tracks : List Track) (s : EngState) : Prop :=
  (∀ n ∈ s.processed, n ∉ s.remaining.map Track.name) ∧
  (∀ n, (n ∈ s.processed ∨ n ∈ s.remaining.map Track.name) ↔
    n ∈ tracks.map Track.name)

/-! ### Concrete oracles for counterexamples and witnesses -/

/-- A destination on which every search returns zero hits. -/
def envNoHits : Env := ⟨fun _ _ => SearchRes.noHits, fun _ _ => AddRes.ok⟩

/-- A destination on which every append fails with a non-quota error. -/
def envAddFails : Env := ⟨fun _ _ => SearchRes.found, fun _ _ => AddRes.errOther⟩

/-- A destination on which the first two appends succeed and the third
signals quota exhaustion. -/
def envQuotaThird : Env :=
  ⟨fun _ _ => SearchRes.found,
   fun i _ => if i < 2 then AddRes.ok else AddRes.errQuota⟩

/-- A destination on which the first track succeeds and every later search
returns zero hits. -/
def envDupSkip : Env :=
  ⟨fun i _ => if i = 0 then SearchRes.found else SearchRes.noHits,
   fun _ _ => AddRes.ok⟩

/-- A destination on which everything succeeds. -/
def envAllOk : Env := ⟨fun _ _ => SearchRes.found, fun _ _ => AddRes.ok⟩

/-- A YouTube playlists endpoint that reports no playlist for any id and
assigns the id `fresh` to inserted playlists. -/
def ytEmptySvc : YtApi :=
  ⟨fun _ => ListResp.empty, fun t d pr => ⟨"fresh", t, d, pr⟩⟩

/-! ## Theorems -/

/-- C1 counterexample: one track, the search returns zero hits
(`envNoHits`), default `max_retries = 3`, `delay = 2`.  After the run the
track is still in `remaining` (the `break` on line 193 leaves the loop
without any removal), `processed` is empty, and the only call made was the
single search — so the claim's "removes it from `remaining`" is false on
the code. -/
theorem c1_counterexample :
    (search_and_add_to_playlist envNoHits none "P" [⟨"a", []⟩] 3 2).1.remaining
        = [⟨"a", []⟩] ∧
    (search_and_add_to_playlist envNoHits none "P" [⟨"a", []⟩] 3 2).1.processed
        = [] ∧
    (search_and_add_to_playlist envNoHits none "P" [⟨"a", []⟩] 3 2).1.events
        = [Ev.searchCall 0 0] := by
  decide

/-- C1 (amended): for every track whose destination search returns zero
hits on its first attempt, the attempt loop makes exactly 0 append calls
and exactly 1 search call, adds nothing to `processed`, consumes no retry
budget, and leaves `remaining` (and the store) unchanged — in particular
the track is NOT removed from `remaining`. -/
theorem c1_not_found_skip (env : Env) (pid : String) (d i : Nat) (t : Track)
    (m : Nat) (s : EngState) (h : env.search i 0 = SearchRes.noHits) :
    attemptLoop env pid d i t 0 (m + 1) s =
      ({ s with events := s.events ++ [Ev.searchCall i 0] }, false) := by
  simp [attemptLoop, h]

/-- C1 witness: the amended theorem applied to a concrete not-found run. -/
theorem c1_not_found_skip_witness :
    envNoHits.search 0 0 = SearchRes.noHits ∧
    attemptLoop envNoHits "P" 2 0 ⟨"a", []⟩ 0 3 ⟨[], [⟨"a", []⟩], none, []⟩ =
      (⟨[], [⟨"a", []⟩], none, [Ev.searchCall 0 0]⟩, false) :=
  ⟨rfl, c1_not_found_skip envNoHits "P" 2 0 ⟨"a", []⟩ 2
    ⟨[], [⟨"a", []⟩], none, []⟩ rfl⟩

/-- C2 counterexample: one track whose append fails with a non-quota error
on all 3 attempts (`envAddFails`), `max_retries = 3`, `delay = 2`.  The
track is still in `remaining` after the run (the claim says absent), and
the waits between the three attempts are `sleep(delay * 2) = 4` and `4`,
not `2` and `4`. -/
theorem c2_counterexample :
    (search_and_add_to_playlist envAddFails none "P" [⟨"a", []⟩] 3 2).1.remaining
        = [⟨"a", []⟩] ∧
    (search_and_add_to_playlist envAddFails none "P" [⟨"a", []⟩] 3 2).1.events
        = [Ev.searchCall 0 0, Ev.appendCall 0 0, Ev.sleepCall 4,
           Ev.searchCall 0 1, Ev.appendCall 0 1, Ev.sleepCall 4,
           Ev.searchCall 0 2, Ev.appendCall 0 2] := by
  decide

/-- C2 (amended): for every track whose append call fails with a non-quota
destination error on all attempts (`max_retries = 3`, `delay = 2`), the run
makes exactly 3 append attempts for that track with waits of `delay * 2 =
4` and `4` time-units between them; the track's name never enters
`processed`, and the track REMAINS in `remaining` (the exhaustion path on
lines 226-227 logs and moves on without removing it). -/
theorem c2_retry_exhaustion (env : Env) (pid : String) (i : Nat) (t : Track)
    (s : EngState)
    (hs0 : env.search i 0 = SearchRes.found) (ha0 : env.add i 0 = AddRes.errOther)
    (hs1 : env.search i 1 = SearchRes.found) (ha1 : env.add i 1 = AddRes.errOther)
    (hs2 : env.search i 2 = SearchRes.found) (ha2 : env.add i 2 = AddRes.errOther) :
    attemptLoop env pid 2 i t 0 3 s =
      ({ s with events := s.events ++
          [Ev.searchCall i 0, Ev.appendCall i 0, Ev.sleepCall 4,
           Ev.searchCall i 1, Ev.appendCall i 1, Ev.sleepCall 4,
           Ev.searchCall i 2, Ev.appendCall i 2] }, false) := by
  simp [attemptLoop, hs0, ha0, hs1, ha1, hs2, ha2]

/-- C2 witness: the amended theorem applied to a concrete
always-failing-append run. -/
theorem c2_retry_exhaustion_witness :
    envAddFails.search 0 0 = SearchRes.found ∧
    envAddFails.add 0 0 = AddRes.errOther ∧
    attemptLoop envAddFails "P" 2 0 ⟨"a", []⟩ 0 3 ⟨[], [⟨"a", []⟩], none, []⟩ =
      (⟨[], [⟨"a", []⟩], none,
        [Ev.searchCall 0 0, Ev.appendCall 0 0, Ev.sleepCall 4,
         Ev.searchCall 0 1, Ev.appendCall 0 1, Ev.sleepCall 4,
         Ev.searchCall 0 2, Ev.appendCall 0 2]⟩, false) :=
  ⟨rfl, rfl, c2_retry_exhaustion envAddFails "P" 0 ⟨"a", []⟩
    ⟨[], [⟨"a", []⟩], none, []⟩ rfl rfl rfl rfl rfl rfl⟩

/-- C3: over 5 tracks where the first two appends succeed and the third
append call signals quota exhaustion, the run ends through the quota
`return` (normal termination, flag `true`), with `processed` exactly the
first 2 names, `remaining` exactly the last 3 tracks (the quota-triggering
one unappended and still first), and the state persisted at termination
exactly that split. -/
theorem c3_quota_stop (env : Env) (pid : String) (t1 t2 t3 t4 t5 : Track)
    (hs0 : env.search 0 0 = SearchRes.found) (ha0 : env.add 0 0 = AddRes.ok)
    (hs1 : env.search 1 0 = SearchRes.found) (ha1 : env.add 1 0 = AddRes.ok)
    (hs2 : env.search 2 0 = SearchRes.found)
    (ha2 : env.add 2 0 = AddRes.errQuota) :
    search_and_add_to_playlist env none pid [t1, t2, t3, t4, t5] 3 2 =
      (⟨[t1.name, t2.name], [t3, t4, t5],
        some ⟨pid, [t1.name, t2.name], [t3, t4, t5]⟩,
        [Ev.searchCall 0 0, Ev.appendCall 0 0, Ev.saveCall, Ev.sleepCall 2,
         Ev.searchCall 1 0, Ev.appendCall 1 0, Ev.saveCall, Ev.sleepCall 2,
         Ev.searchCall 2 0, Ev.appendCall 2 0, Ev.saveCall]⟩, true) := by
  simp [search_and_add_to_playlist, initState, load_progress, runFrom,
    runTracks, attemptLoop, save_progress, hs0, ha0, hs1, ha1, hs2, ha2]

/-- C3 witness: the theorem applied to a concrete 5-track quota run. -/
theorem c3_quota_stop_witness :
    envQuotaThird.add 2 0 = AddRes.errQuota ∧
    search_and_add_to_playlist envQuotaThird none "P"
        [⟨"a", []⟩, ⟨"b", []⟩, ⟨"c", []⟩, ⟨"d", []⟩, ⟨"e", []⟩] 3 2 =
      (⟨["a", "b"], [⟨"c", []⟩, ⟨"d", []⟩, ⟨"e", []⟩],
        some ⟨"P", ["a", "b"], [⟨"c", []⟩, ⟨"d", []⟩, ⟨"e", []⟩]⟩,
        [Ev.searchCall 0 0, Ev.appendCall 0 0, Ev.saveCall, Ev.sleepCall 2,
         Ev.searchCall 1 0, Ev.appendCall 1 0, Ev.saveCall, Ev.sleepCall 2,
         Ev.searchCall 2 0, Ev.appendCall 2 0, Ev.saveCall]⟩, true) :=
  ⟨rfl, c3_quota_stop envQuotaThird "P" ⟨"a", []⟩ ⟨"b", []⟩ ⟨"c", []⟩
    ⟨"d", []⟩ ⟨"e", []⟩ rfl rfl rfl rfl rfl rfl⟩

/-- C4: the engine's resume decision (lines 167-176).  With a persisted
record whose `playlist_id` equals the target, the run is the loop started
from the record's `processed`/`remaining`; with a record for a different
playlist, or no record, the run is the loop started fresh from the
extracted `tracks` with empty `processed`. -/
theorem c4_resume (env : Env) (p : Progress) (pid : String)
    (tracks : List Track) (m d : Nat) :
    (p.playlist_id = pid →
      search_and_add_to_playlist env (some p) pid tracks m d =
        runFrom env pid m d p.processed_tracks p.remaining_tracks (some p)) ∧
    (p.playlist_id ≠ pid →
      search_and_add_to_playlist env (some p) pid tracks m d =
        runFrom env pid m d [] tracks (some p)) ∧
    (search_and_add_to_playlist env none pid tracks m d =
      runFrom env pid m d [] tracks none) := by
  refine ⟨fun h => ?_, fun h => ?_, ?_⟩ <;>
    simp [search_and_add_to_playlist, initState, load_progress, *]

/-- C4 witness: the resume decision applied to a concrete matching record,
a concrete mismatching record, and no record. -/
theorem c4_resume_witness :
    (search_and_add_to_playlist envAllOk
        (some ⟨"P", ["x"], [⟨"b", []⟩]⟩) "P" [⟨"a", []⟩] 3 2 =
      runFrom envAllOk "P" 3 2 ["x"] [⟨"b", []⟩]
        (some ⟨"P", ["x"], [⟨"b", []⟩]⟩)) ∧
    (search_and_add_to_playlist envAllOk
        (some ⟨"Q", ["x"], [⟨"b", []⟩]⟩) "P" [⟨"a", []⟩] 3 2 =
      runFrom envAllOk "P" 3 2 [] [⟨"a", []⟩]
        (some ⟨"Q", ["x"], [⟨"b", []⟩]⟩)) :=
  ⟨(c4_resume envAllOk ⟨"P", ["x"], [⟨"b", []⟩]⟩ "P" [⟨"a", []⟩] 3 2).1 rfl,
   (c4_resume envAllOk ⟨"Q", ["x"], [⟨"b", []⟩]⟩ "P" [⟨"a", []⟩] 3 2).2.1
     (by decide)⟩

/-- C7: evaluation of the extraction at the failing input.  Liked-songs
mode with page size 2 over `[item with null track, A, B]`: because line 101
re-fetches with `offset = len(tracks)` — the count of KEPT descriptors, not
of consumed raw items — the skipped item shifts the window back and `A` is
returned twice, violating "one descriptor per raw item that has the
required fields ... without affecting which other items are returned".
Playlist mode (native cursor, line 103) over the same items paged the same
way returns each qualifying item once, as the claim says. -/
theorem c7_liked_offset_bug :
    get_spotify_tracks_liked
        [⟨none⟩, ⟨some ⟨some "A", some []⟩⟩, ⟨some ⟨some "B", some []⟩⟩] 2 10 =
      some [⟨"A", []⟩, ⟨"A", []⟩, ⟨"B", []⟩] ∧
    get_spotify_tracks_playlist
        [[⟨none⟩, ⟨some ⟨some "A", some []⟩⟩], [⟨some ⟨some "B", some []⟩⟩]] =
      [⟨"A", []⟩, ⟨"B", []⟩] := by
  decide

/-- C7 supporting fact: with two leading skipped items and page size 2, the
liked-songs loop never advances its offset and runs forever (no fuel
suffices). -/
theorem c7_liked_never_ends :
    ∀ fuel, likedGo [⟨none⟩, ⟨none⟩, ⟨some ⟨some "A", some []⟩⟩] 2 fuel
      (fetchPage [⟨none⟩, ⟨none⟩, ⟨some ⟨some "A", some []⟩⟩] 2 0) [] = none := by
  intro fuel
  induction fuel with
  | zero => rfl
  | succ n ih => exact ih

/-- C8: the playlist resolver.  A (truthy) id takes precedence over a name;
an explicit id that the destination reports as nonexistent fails with the
fatal not-found error after exactly one lookup call (no retry); a name
alone creates a playlist with that name, the given description and privacy
`private`, returning the service's response with its fresh id; with neither
argument the missing-arguments error is raised. -/
theorem c8_resolver (yt : YtApi) (nm pid desc : String) (mn : Option String)
    (hpid : pid ≠ "") :
    (create_or_get_youtube_playlist yt mn (some pid) desc =
       create_or_get_youtube_playlist yt none (some pid) desc) ∧
    (yt.listById pid = ListResp.empty →
       create_or_get_youtube_playlist yt mn (some pid) desc =
         (ResolveRes.errNoPlaylist pid, [YtCall.list pid])) ∧
    (nm ≠ "" →
       create_or_get_youtube_playlist yt (some nm) none desc =
         (ResolveRes.ok (yt.insert nm desc "private"),
          [YtCall.insert nm desc "private"])) ∧
    (create_or_get_youtube_playlist yt none none desc =
       (ResolveRes.errMissingArgs, [])) := by
  refine ⟨?_, fun h => ?_, fun h => ?_, ?_⟩ <;>
    simp [create_or_get_youtube_playlist, resolveByName, hpid, *]

/-- C8 witness: the resolver theorem applied to a concrete service that
reports no playlist for the explicit id. -/
theorem c8_resolver_witness :
    ("PL7" : String) ≠ "" ∧
    create_or_get_youtube_playlist ytEmptySvc (some "My list") (some "PL7")
        "Imported from Spotify" =
      (ResolveRes.errNoPlaylist "PL7", [YtCall.list "PL7"]) ∧
    create_or_get_youtube_playlist ytEmptySvc (some "My list") none
        "Imported from Spotify" =
      (ResolveRes.ok ⟨"fresh", "My list", "Imported from Spotify", "private"⟩,
       [YtCall.insert "My list" "Imported from Spotify" "private"]) :=
  ⟨by decide,
   (c8_resolver ytEmptySvc "My list" "PL7" "Imported from Spotify"
      (some "My list") (by decide)).2.1 rfl,
   (c8_resolver ytEmptySvc "My list" "PL7" "Imported from Spotify"
      (some "My list") (by decide)).2.2.1 (by decide)⟩

/-- C9 counterexample: a crash between the truncating `open(..., 'w')` and
the completion of `json.dump` exposes a file state that is neither the
complete old record nor the complete new record, so the save is not atomic
as the claim states. -/
theorem c9_counterexample :
    ∃ st ∈ save_progress_crash_states (FileState.record ⟨"P", [], []⟩)
        ⟨"P", ["a"], []⟩,
      st ≠ FileState.record ⟨"P", [], []⟩ ∧
      st ≠ FileState.record ⟨"P", ["a"], []⟩ := by
  decide

/-- C9 (amended): every save overwrites the single persisted record
wholesale (the final content is the new record regardless of the old), but
it is NOT atomic with respect to a crash during the write: `save_progress`
opens the file with mode `w` (truncating it in place) and then writes, with
no write-then-rename step, so the truncated intermediate state — a file
holding no complete record at all — is crash-observable. -/
theorem c9_not_atomic (old : FileState) (p : Progress) :
    save_progress_file old p = FileState.record p ∧
    FileState.truncated ∈ save_progress_crash_states old p ∧
    ∀ q : Progress, FileState.truncated ≠ FileState.record q := by
  refine ⟨rfl, ?_, ?_⟩
  · simp [save_progress_crash_states]
  · intro q h
    exact FileState.noConfusion h

/-- C10: the progress store round-trips.  A `load_progress` right after any
`save_progress(playlist_id, processed, remaining)` returns a record whose
`playlist_id`, `processed_tracks` and `remaining_tracks` fields equal the
saved values; and over any sequence of saves and clears starting from no
file, `load_progress` reports absence exactly when nothing was ever saved
or the last operation was a clear. -/
theorem c10_roundtrip :
    (∀ (st : Option Progress) (pid : String) (proc : List String)
        (rem : List Track),
      load_progress (applyStoreOp st (StoreOp.save pid proc rem)) =
        some ⟨pid, proc, rem⟩) ∧
    (∀ ops : List StoreOp,
      load_progress (runStoreOps ops) = none ↔
        ops = [] ∨ ∃ pre, ops = pre ++ [StoreOp.clear]) := by
  constructor
  · intro st pid proc rem
    rfl
  · intro ops
    induction ops using List.reverseRecOn with
    | nil => simp [runStoreOps, load_progress]
    | append_singleton pre op _ =>
      cases op with
      | save pid proc rem =>
        simp only [runStoreOps, load_progress, List.foldl_append,
          List.foldl_cons, List.foldl_nil, applyStoreOp, save_progress]
        constructor
        · intro h
          exact Option.noConfusion h
        · rintro (h | ⟨pre2, h⟩)
          · exact absurd h (by simp)
          · have h2 := congrArg List.getLast? h
            rw [List.getLast?_concat, List.getLast?_concat] at h2
            simp at h2
      | clear =>
        simp only [runStoreOps, load_progress, List.foldl_append,
          List.foldl_cons, List.foldl_nil, applyStoreOp]
        simp only [true_iff, eq_self_iff_true]
        exact Or.inr ⟨pre, rfl⟩

/-! ### The per-track attempt loop changes the lists in exactly one way -/

/-- One run of the attempt loop either leaves `processed` and `remaining`
untouched (not-found, quota stop, retry exhaustion, unexpected error) or —
on a successful add — appends exactly the track's name to `processed` and
erases exactly (the first occurrence of) the track from `remaining`. -/
theorem attemptLoop_proc_rem (env : Env) (pid : String) (d i : Nat)
    (t : Track) :
    ∀ (fuel r : Nat) (s : EngState),
      ((attemptLoop env pid d i t r fuel s).1.processed = s.processed ∧
       (attemptLoop env pid d i t r fuel s).1.remaining = s.remaining) ∨
      ((attemptLoop env pid d i t r fuel s).1.processed
          = s.processed ++ [t.name] ∧
       (attemptLoop env pid d i t r fuel s).1.remaining
          = s.remaining.erase t) := by
  intro fuel
  induction fuel with
  | zero =>
    intro r s
    left
    constructor <;> simp [attemptLoop]
  | succ n ih =>
    intro r s
    cases hs : env.search i r with
    | found =>
      cases ha : env.add i r with
      | ok =>
        right
        constructor <;> simp [attemptLoop, hs, ha]
      | errQuota =>
        left
        constructor <;> simp [attemptLoop, hs, ha]
      | errOther =>
        by_cases hn : n = 0
        · subst hn
          left
          constructor <;> simp [attemptLoop, hs, ha]
        · have h2 := ih (r + 1)
            { s with events := s.events ++
                [Ev.searchCall i r, Ev.appendCall i r, Ev.sleepCall (d * 2)] }
          simpa [attemptLoop, hs, ha, hn] using h2
      | exc =>
        left
        constructor <;> simp [attemptLoop, hs, ha]
    | noHits =>
      left
      constructor <;> simp [attemptLoop, hs]
    | errQuota =>
      left
      constructor <;> simp [attemptLoop, hs]
    | errOther =>
      by_cases hn : n = 0
      · subst hn
        left
        constructor <;> simp [attemptLoop, hs]
      · have h2 := ih (r + 1)
          { s with events := s.events ++
              [Ev.searchCall i r, Ev.sleepCall (d * 2)] }
        simpa [attemptLoop, hs, hn] using h2
    | exc =>
      left
      constructor <;> simp [attemptLoop, hs]

/-- A successful add preserves the invariant: appending the name of a track
of `remaining` to `processed` and erasing that track keeps the lists
duplicate-free and disjoint with the same name union. -/
theorem InvPR_success (N : List String) (proc : List String)
    (rem : List Track) (t : Track) (hInv : InvPR N proc rem) (ht : t ∈ rem) :
    InvPR N (proc ++ [t.name]) (rem.erase t) := by
  obtain ⟨hp, hr, hdisj, hu⟩ := hInv
  have hinj := List.inj_on_of_nodup_map hr
  have hrn : rem.Nodup := List.Nodup.of_map _ hr
  have hsub : List.Sublist (rem.erase t) rem := List.erase_sublist t rem
  have hsubm : List.Sublist ((rem.erase t).map Track.name)
      (rem.map Track.name) := hsub.map Track.name
  have htn : t.name ∈ rem.map Track.name := List.mem_map.mpr ⟨t, ht, rfl⟩
  have htnp : t.name ∉ proc := fun hmem => hdisj t.name hmem htn
  have hkey : t.name ∉ (rem.erase t).map Track.name := by
    intro hmem
    obtain ⟨u, hu1, hu2⟩ := List.mem_map.mp hmem
    have hu3 : u ∈ rem := hsub.subset hu1
    have hut : u = t := hinj hu3 ht hu2
    subst hut
    exact List.Nodup.not_mem_erase hrn hu1
  refine ⟨?_, ?_, ?_, ?_⟩
  · refine List.Nodup.append hp (List.nodup_singleton _) ?_
    intro a ha hb
    rw [List.mem_singleton] at hb
    subst hb
    exact htnp ha
  · exact hr.sublist hsubm
  · intro n hn hmem
    rcases List.mem_append.mp hn with h1 | h1
    · exact hdisj n h1 (hsubm.subset hmem)
    · rw [List.mem_singleton] at h1
      subst h1
      exact hkey hmem
  · intro n
    constructor
    · rintro (hn | hn)
      · rcases List.mem_append.mp hn with h1 | h1
        · exact (hu n).mp (Or.inl h1)
        · rw [List.mem_singleton] at h1
          subst h1
          exact (hu t.name).mp (Or.inr htn)
      · exact (hu n).mp (Or.inr (hsubm.subset hn))
    · intro hn
      rcases (hu n).mpr hn with h1 | h1
      · exact Or.inl (List.mem_append.mpr (Or.inl h1))
      · by_cases hnt : n = t.name
        · subst hnt
          exact Or.inl (List.mem_append.mpr (Or.inr (List.mem_singleton.mpr rfl)))
        · obtain ⟨u, hu1, hu2⟩ := List.mem_map.mp h1
          have hune : u ≠ t := by
            intro he
            subst he
            exact hnt hu2.symm
          exact Or.inr
            (List.mem_map.mpr ⟨u, (List.mem_erase_of_ne hune).mpr hu1, hu2⟩)

/-- The attempt loop preserves the invariant, provided the current track is
still in `remaining`. -/
theorem InvPR_attemptLoop (env : Env) (pid : String) (d i : Nat) (t : Track)
    (N : List String) (fuel r : Nat) (s : EngState)
    (hInv : InvPR N s.processed s.remaining) (ht : t ∈ s.remaining) :
    InvPR N (attemptLoop env pid d i t r fuel s).1.processed
      (attemptLoop env pid d i t r fuel s).1.remaining := by
  rcases attemptLoop_proc_rem env pid d i t fuel r s with ⟨h1, h2⟩ | ⟨h1, h2⟩
  · rw [h1, h2]
    exact hInv
  · rw [h1, h2]
    exact InvPR_success N s.processed s.remaining t hInv ht

/-- Every state on the trace of the loop satisfies the invariant, when the
starting state does, the pending snapshot tracks are still in `remaining`,
and the snapshot's names are duplicate-free. -/
theorem InvPR_trace (env : Env) (pid : String) (m d : Nat)
    (N : List String) :
    ∀ (ts : List Track) (i : Nat) (s : EngState),
      InvPR N s.processed s.remaining →
      (∀ u ∈ ts, u ∈ s.remaining) →
      (ts.map Track.name).Nodup →
      ∀ s2 ∈ runTracksTrace env pid m d i ts s,
        InvPR N s2.processed s2.remaining := by
  intro ts
  induction ts with
  | nil =>
    intro i s hInv _ _ s2 hs2
    simp only [runTracksTrace, List.mem_singleton] at hs2
    subst hs2
    exact hInv
  | cons t rest ih =>
    intro i s hInv hmem hnd s2 hs2
    have ht : t ∈ s.remaining := hmem t (List.mem_cons_self t rest)
    have hInv2 := InvPR_attemptLoop env pid d i t N m 0 s hInv ht
    rw [List.map_cons, List.nodup_cons] at hnd
    by_cases hq : (attemptLoop env pid d i t 0 m s).2
    · simp only [runTracksTrace, hq, if_true, List.mem_cons,
        List.mem_singleton, List.not_mem_nil, or_false] at hs2
      rcases hs2 with rfl | rfl
      · exact hInv
      · exact hInv2
    · simp only [runTracksTrace, hq, if_false, List.mem_cons,
        Bool.false_eq_true] at hs2
      rcases hs2 with rfl | hs2
      · exact hInv
      · have hmem2 : ∀ u ∈ rest, u ∈ (attemptLoop env pid d i t 0 m s).1.remaining := by
          intro u hu
          have hu1 : u ∈ s.remaining := hmem u (List.mem_cons_of_mem t hu)
          have hune : u ≠ t := by
            intro he
            exact hnd.1 (List.mem_map.mpr ⟨u, hu, by rw [he]⟩)
          rcases attemptLoop_proc_rem env pid d i t m 0 s with ⟨_, h2⟩ | ⟨_, h2⟩
          · rw [h2]
            exact hu1
          · rw [h2]
            exact (List.mem_erase_of_ne hune).mpr hu1
        exact ih (i + 1) (attemptLoop env pid d i t 0 m s).1 hInv2 hmem2 hnd.2 s2 hs2

/-- C5 counterexample: with two tracks that share the name "a" (allowed by
the claim, which quantifies over every initial extracted set), the first
add succeeds and the second search finds nothing, leaving a state of the
run — on its own trace — where "a" is in `processed` AND in the names of
`remaining`, so the claimed disjointness fails on the code. -/
theorem c5_counterexample :
    ∃ s ∈ engineStates envDupSkip "P" 3 2 [⟨"a", []⟩, ⟨"a", []⟩],
      "a" ∈ s.processed ∧ "a" ∈ s.remaining.map Track.name := by
  decide

/-- C5 (amended): for every run started fresh from an extracted track list
whose names are pairwise distinct, at every point of the run the names in
`processed` and the track names in `remaining` are disjoint and their union
is exactly the initial extracted name set (it never gains or loses
members); and, one loop iteration at a time, either a successful add moves
exactly one track's name from `remaining` to `processed`, or the lists are
unchanged — in particular the skip paths (not-found, retry exhaustion,
unexpected error) leave the skipped track IN `remaining` rather than
dropping it, which is where the original claim's "loses members only via
the skip paths" over-promised loss and its disjointness failed for
duplicate names. -/
theorem c5_invariant (env : Env) (pid : String) (m d : Nat)
    (tracks : List Track) (hnd : (tracks.map Track.name).Nodup) :
    (∀ s ∈ engineStates env pid m d tracks, c5StateProp tracks s) ∧
    (∀ (i r fuel : Nat) (t : Track) (s : EngState),
      ((attemptLoop env pid d i t r fuel s).1.processed = s.processed ∧
       (attemptLoop env pid d i t r fuel s).1.remaining = s.remaining) ∨
      ((attemptLoop env pid d i t r fuel s).1.processed
          = s.processed ++ [t.name] ∧
       (attemptLoop env pid d i t r fuel s).1.remaining
          = s.remaining.erase t)) := by
  constructor
  · intro s hs
    have h0 : InvPR (tracks.map Track.name) ([] : List String) tracks := by
      refine ⟨List.nodup_nil, hnd, ?_, ?_⟩
      · intro n hn
        simp at hn
      · intro n
        simp
    have h2 := InvPR_trace env pid m d (tracks.map Track.name) tracks 0
      ⟨[], tracks, none, []⟩ h0 (fun _ hu => hu) hnd s hs
    exact ⟨h2.2.2.1, h2.2.2.2⟩
  · intro i r fuel t s
    exact attemptLoop_proc_rem env pid d i t fuel r s

/-- C5 witness: the amended invariant applied to a concrete one-track run
with distinct names. -/
theorem c5_invariant_witness :
    (([⟨"a", []⟩] : List Track).map Track.name).Nodup ∧
    ((∀ s ∈ engineStates envNoHits "P" 3 2 [⟨"a", []⟩],
        c5StateProp [⟨"a", []⟩] s) ∧
     (∀ (i r fuel : Nat) (t : Track) (s : EngState),
       ((attemptLoop envNoHits "P" 2 i t r fuel s).1.processed
           = s.processed ∧
        (attemptLoop envNoHits "P" 2 i t r fuel s).1.remaining
           = s.remaining) ∨
       ((attemptLoop envNoHits "P" 2 i t r fuel s).1.processed
           = s.processed ++ [t.name] ∧
        (attemptLoop envNoHits "P" 2 i t r fuel s).1.remaining
           = s.remaining.erase t))) :=
  ⟨by decide, c5_invariant envNoHits "P" 3 2 [⟨"a", []⟩] (by decide)⟩

/-! ### Lemmas for the completion / cleanup claim -/

/-- When every pending track's first attempt searches successfully and
appends successfully, the loop empties `remaining` and appends all the
names to `processed`, without a quota stop. -/
theorem runTracks_all_success (env : Env) (pid : String) (m d : Nat) :
    ∀ (ts : List Track) (i : Nat) (s : EngState),
      s.remaining = ts →
      (∀ j, j < ts.length →
        env.search (i + j) 0 = SearchRes.found ∧ env.add (i + j) 0 = AddRes.ok) →
      (runTracks env pid (m + 1) d i ts s).2 = false ∧
      (runTracks env pid (m + 1) d i ts s).1.remaining = [] ∧
      (runTracks env pid (m + 1) d i ts s).1.processed
          = s.processed ++ ts.map Track.name := by
  intro ts
  induction ts with
  | nil =>
    intro i s hrem _
    refine ⟨rfl, ?_, ?_⟩ <;> simp [runTracks, hrem]
  | cons t rest ih =>
    intro i s hrem hok
    have h0 := hok 0 (Nat.succ_pos _)
    rw [Nat.add_zero] at h0
    have hstep : attemptLoop env pid d i t 0 (m + 1) s =
        ({ s with processed := s.processed ++ [t.name],
                  remaining := s.remaining.erase t,
                  store := save_progress pid (s.processed ++ [t.name])
                    (s.remaining.erase t),
                  events := s.events ++ [Ev.searchCall i 0, Ev.appendCall i 0,
                    Ev.saveCall, Ev.sleepCall d] }, false) := by
      simp [attemptLoop, h0.1, h0.2]
    have herase : s.remaining.erase t = rest := by
      rw [hrem, List.erase_cons_head]
    have hok2 : ∀ j, j < rest.length →
        env.search (i + 1 + j) 0 = SearchRes.found ∧
        env.add (i + 1 + j) 0 = AddRes.ok := by
      intro j hj
      have h1 := hok (j + 1) (Nat.succ_lt_succ hj)
      have harith : i + (j + 1) = i + 1 + j := by omega
      rwa [harith] at h1
    have hrest := ih (i + 1)
      ({ s with processed := s.processed ++ [t.name],
                remaining := s.remaining.erase t,
                store := save_progress pid (s.processed ++ [t.name])
                  (s.remaining.erase t),
                events := s.events ++ [Ev.searchCall i 0, Ev.appendCall i 0,
                  Ev.saveCall, Ev.sleepCall d] })
      (by simpa using herase) hok2
    refine ⟨?_, ?_, ?_⟩ <;>
      simp only [runTracks, hstep, if_false, Bool.false_eq_true] <;>
      simp [hrest.1, hrest.2.1, hrest.2.2]

/-- The attempt loop either leaves the store untouched and does not stop
the run, or leaves some saved record in the store. -/
theorem attemptLoop_store (env : Env) (pid : String) (d i : Nat) (t : Track) :
    ∀ (fuel r : Nat) (s : EngState),
      ((attemptLoop env pid d i t r fuel s).1.store = s.store ∧
       (attemptLoop env pid d i t r fuel s).2 = false) ∨
      ∃ q, (attemptLoop env pid d i t r fuel s).1.store = some q := by
  intro fuel
  induction fuel with
  | zero =>
    intro r s
    left
    exact ⟨rfl, rfl⟩
  | succ n ih =>
    intro r s
    cases hs : env.search i r with
    | found =>
      cases ha : env.add i r with
      | ok =>
        right
        refine ⟨⟨pid, s.processed ++ [t.name], s.remaining.erase t⟩, ?_⟩
        simp [attemptLoop, hs, ha, save_progress]
      | errQuota =>
        right
        refine ⟨⟨pid, s.processed, s.remaining⟩, ?_⟩
        simp [attemptLoop, hs, ha, save_progress]
      | errOther =>
        by_cases hn : n = 0
        · subst hn
          left
          constructor <;> simp [attemptLoop, hs, ha]
        · have h2 := ih (r + 1)
            { s with events := s.events ++
                [Ev.searchCall i r, Ev.appendCall i r, Ev.sleepCall (d * 2)] }
          simpa [attemptLoop, hs, ha, hn] using h2
      | exc =>
        left
        constructor <;> simp [attemptLoop, hs, ha]
    | noHits =>
      left
      constructor <;> simp [attemptLoop, hs]
    | errQuota =>
      right
      refine ⟨⟨pid, s.processed, s.remaining⟩, ?_⟩
      simp [attemptLoop, hs, save_progress]
    | errOther =>
      by_cases hn : n = 0
      · subst hn
        left
        constructor <;> simp [attemptLoop, hs]
      · have h2 := ih (r + 1)
          { s with events := s.events ++
              [Ev.searchCall i r, Ev.sleepCall (d * 2)] }
        simpa [attemptLoop, hs, hn] using h2
    | exc =>
      left
      constructor <;> simp [attemptLoop, hs]

/-- The loop either leaves the store untouched without a quota stop, or
leaves some saved record in the store. -/
theorem runTracks_store (env : Env) (pid : String) (m d : Nat) :
    ∀ (ts : List Track) (i : Nat) (s : EngState),
      ((runTracks env pid m d i ts s).1.store = s.store ∧
       (runTracks env pid m d i ts s).2 = false) ∨
      ∃ q, (runTracks env pid m d i ts s).1.store = some q := by
  intro ts
  induction ts with
  | nil =>
    intro i s
    left
    exact ⟨rfl, rfl⟩
  | cons t rest ih =>
    intro i s
    by_cases hq : (attemptLoop env pid d i t 0 m s).2
    · rcases attemptLoop_store env pid d i t m 0 s with ⟨_, h2⟩ | ⟨q, h2⟩
      · rw [hq] at h2
        exact absurd h2 (by simp)
      · right
        refine ⟨q, ?_⟩
        simp only [runTracks, hq, if_true]
        exact h2
    · have hred : runTracks env pid m d i (t :: rest) s =
          runTracks env pid m d (i + 1) rest (attemptLoop env pid d i t 0 m s).1 := by
        simp only [runTracks]
        simp [hq]
      rw [hred]
      rcases ih (i + 1) (attemptLoop env pid d i t 0 m s).1 with ⟨h1, h2⟩ | ⟨q, h2⟩
      · rcases attemptLoop_store env pid d i t m 0 s with ⟨h3, _⟩ | ⟨q, h3⟩
        · left
          exact ⟨h1.trans h3, h2⟩
        · right
          exact ⟨q, h1.trans h3⟩
      · right
        exact ⟨q, h2⟩

/-- C6: the persisted record is deleted exactly on completion.  (a) When
every input track's search and append succeed (fresh run, default
`max_retries = 3`), the run ends with `remaining` empty, the persisted
state ABSENT (the unlink of lines 239-240), `processed` equal to all input
names (the reported count equals the number of input tracks), and no quota
stop.  (b) Every run that ends through the quota `return` leaves a saved
record present.  (c) Every run that ends with `remaining` non-empty leaves
the store either exactly as it was on entry or holding a saved record — it
is never cleared while tracks remain, so a record present at entry (or
written during the run) is still present. -/
theorem c6_completion_cleanup (env : Env) (pid : String)
    (tracks : List Track) (d : Nat)
    (hall : ∀ j, j < tracks.length →
      env.search j 0 = SearchRes.found ∧ env.add j 0 = AddRes.ok) :
    ((search_and_add_to_playlist env none pid tracks 3 d).1.remaining = [] ∧
     (search_and_add_to_playlist env none pid tracks 3 d).1.store = none ∧
     (search_and_add_to_playlist env none pid tracks 3 d).1.processed
         = tracks.map Track.name ∧
     (search_and_add_to_playlist env none pid tracks 3 d).2 = false) ∧
    (∀ (env2 : Env) (store2 : Option Progress) (tracks2 : List Track)
        (m2 d2 : Nat),
      (search_and_add_to_playlist env2 store2 pid tracks2 m2 d2).2 = true →
      ∃ q, (search_and_add_to_playlist env2 store2 pid tracks2 m2 d2).1.store
             = some q) ∧
    (∀ (env2 : Env) (store2 : Option Progress) (tracks2 : List Track)
        (m2 d2 : Nat),
      (search_and_add_to_playlist env2 store2 pid tracks2 m2 d2).1.remaining
          ≠ [] →
      (search_and_add_to_playlist env2 store2 pid tracks2 m2 d2).1.store
          = store2 ∨
      ∃ q, (search_and_add_to_playlist env2 store2 pid tracks2 m2 d2).1.store
             = some q) := by
  refine ⟨?_, ?_, ?_⟩
  · have hok : ∀ j, j < tracks.length →
        env.search (0 + j) 0 = SearchRes.found ∧
        env.add (0 + j) 0 = AddRes.ok := by
      intro j hj
      rw [Nat.zero_add]
      exact hall j hj
    have hrun := runTracks_all_success env pid 2 d tracks 0
      ⟨[], tracks, none, []⟩ rfl hok
    have h3 : (2 : Nat) + 1 = 3 := rfl
    rw [h3] at hrun
    refine ⟨?_, ?_, ?_, ?_⟩ <;>
      simp [search_and_add_to_playlist, initState, load_progress, runFrom,
        hrun.1, hrun.2.1, hrun.2.2]
  · intro env2 store2 tracks2 m2 d2 hq
    by_cases hq2 : (runTracks env2 pid m2 d2 0 (initState store2 pid tracks2).2
        ⟨(initState store2 pid tracks2).1, (initState store2 pid tracks2).2,
         store2, []⟩).2
    · rcases runTracks_store env2 pid m2 d2 (initState store2 pid tracks2).2 0
        ⟨(initState store2 pid tracks2).1, (initState store2 pid tracks2).2,
         store2, []⟩ with ⟨_, h2⟩ | ⟨q, h2⟩
      · rw [hq2] at h2
        exact absurd h2 (by simp)
      · refine ⟨q, ?_⟩
        simp only [search_and_add_to_playlist, runFrom, hq2, if_true]
        exact h2
    · have hrtf : (runTracks env2 pid m2 d2 0 (initState store2 pid tracks2).2
          ⟨(initState store2 pid tracks2).1, (initState store2 pid tracks2).2,
           store2, []⟩).2 = false := by
        rwa [Bool.not_eq_true] at hq2
      have hfl : (search_and_add_to_playlist env2 store2 pid tracks2 m2 d2).2
          = false := by
        simp only [search_and_add_to_playlist, runFrom]
        rw [if_neg hq2]
        split
        · rfl
        · exact hrtf
      rw [hq] at hfl
      exact absurd hfl (by simp)
  · intro env2 store2 tracks2 m2 d2 hne
    have hres := runTracks_store env2 pid m2 d2
      (initState store2 pid tracks2).2 0
      ⟨(initState store2 pid tracks2).1, (initState store2 pid tracks2).2,
       store2, []⟩
    by_cases hq2 : (runTracks env2 pid m2 d2 0
        (initState store2 pid tracks2).2
        ⟨(initState store2 pid tracks2).1, (initState store2 pid tracks2).2,
         store2, []⟩).2
    · rcases hres with ⟨_, h2⟩ | ⟨q, h2⟩
      · rw [hq2] at h2
        exact absurd h2 (by simp)
      · refine Or.inr ⟨q, ?_⟩
        simp only [search_and_add_to_playlist, runFrom, hq2, if_true]
        exact h2
    · by_cases hem : (runTracks env2 pid m2 d2 0
          (initState store2 pid tracks2).2
          ⟨(initState store2 pid tracks2).1, (initState store2 pid tracks2).2,
           store2, []⟩).1.remaining = []
      · exact absurd (by
          simp only [search_and_add_to_playlist, runFrom]
          simp [hq2, hem]) hne
      · have hkeep : (search_and_add_to_playlist env2 store2 pid tracks2
            m2 d2).1.store = (runTracks env2 pid m2 d2 0
            (initState store2 pid tracks2).2
            ⟨(initState store2 pid tracks2).1,
             (initState store2 pid tracks2).2, store2, []⟩).1.store := by
          simp only [search_and_add_to_playlist, runFrom]
          rw [if_neg hq2, if_neg hem]
        rcases hres with ⟨h1, _⟩ | ⟨q, h1⟩
        · exact Or.inl (hkeep.trans h1)
        · exact Or.inr ⟨q, hkeep.trans h1⟩

/-- C6 witness: the cleanup theorem applied to a concrete successful
two-track run. -/
theorem c6_completion_cleanup_witness :
    (∀ j, j < ([⟨"a", []⟩, ⟨"b", []⟩] : List Track).length →
      envAllOk.search j 0 = SearchRes.found ∧ envAllOk.add j 0 = AddRes.ok) ∧
    (search_and_add_to_playlist envAllOk none "P"
        [⟨"a", []⟩, ⟨"b", []⟩] 3 2).1.remaining = [] ∧
    (search_and_add_to_playlist envAllOk none "P"
        [⟨"a", []⟩, ⟨"b", []⟩] 3 2).1.store = none ∧
    (search_and_add_to_playlist envAllOk none "P"
        [⟨"a", []⟩, ⟨"b", []⟩] 3 2).1.processed = ["a", "b"] :=
  ⟨fun _ _ => ⟨rfl, rfl⟩,
   (c6_completion_cleanup envAllOk "P" [⟨"a", []⟩, ⟨"b", []⟩] 2
      (fun _ _ => ⟨rfl, rfl⟩)).1.1,
   (c6_completion_cleanup envAllOk "P" [⟨"a", []⟩, ⟨"b", []⟩] 2
      (fun _ _ => ⟨rfl, rfl⟩)).1.2.1,
   (c6_completion_cleanup envAllOk "P" [⟨"a", []⟩, ⟨"b", []⟩] 2
      (fun _ _ => ⟨rfl, rfl⟩)).1.2.2.1⟩

end STY
